import Mathlib

/-!
Verification of the safety-gated command execution, retry and history
subsystem of the `my-assistant-cli` repository (src/commands/gen.ts and
src/commands/fix.ts), via a shallow embedding.

Strings are modelled as `List Char` (`Str`), so that the JavaScript string
operations used by the source (`split`, `trim`, `includes`, `startsWith`,
`toLowerCase`) become structurally recursive Lean functions amenable to
induction.  Effectful code (spawning processes, prompting the user,
writing history) is modelled by explicit traces: the oracle inputs are the
user's confirmation answer and the outcome of each spawned child process,
and the output records which confirmation prompts were shown (with their
default answers), how many destructive-warning banners appeared, which
commands were spawned, which history records were written (in
chronological write order), and whether `this.exit` was called and with
which code.  Wall-clock timestamps are not modelled.
-/

/-- JavaScript strings, modelled as lists of characters. -/
abbrev Str := List Char

-- ============================================================
-- JS string primitives used by the source
-- ============================================================

/-- Does `s` start with `p`?  Models JS `String.prototype.startsWith`. -/
def strStartsWith : Str → Str → Bool
  | _, [] => true
  | [], _ :: _ => false
  | c :: cs, d :: ds => c == d && strStartsWith cs ds

/-- Is `sub` a contiguous substring of `s`?  Models JS
`String.prototype.includes`. -/
def jsIncludes : Str → Str → Bool
  | [], sub => sub.isEmpty
  | c :: cs, sub => strStartsWith (c :: cs) sub || jsIncludes cs sub

/-- Models JS `String.prototype.toLowerCase` (ASCII range, which is all the
source's patterns use). -/
def jsToLower (s : Str) : Str := s.map Char.toLower

/-- Core of JS `split(sep)`: returns the chunk before the first separator
together with the remaining chunks. -/
def splitAux (sep : Char) : Str → Str × List Str
  | [] => ([], [])
  | c :: cs =>
    if c == sep then ([], (splitAux sep cs).1 :: (splitAux sep cs).2)
    else (c :: (splitAux sep cs).1, (splitAux sep cs).2)

/-- Models JS `String.prototype.split` with a single-character separator:
always returns at least one (possibly empty) chunk. -/
def splitOnChar (sep : Char) (s : Str) : List Str :=
  (splitAux sep s).1 :: (splitAux sep s).2

/-- Models JS `Array.prototype.join` with a single-character separator. -/
def joinWith (sep : Char) : List Str → Str
  | [] => []
  | [x] => x
  | x :: y :: rest => x ++ sep :: joinWith sep (y :: rest)

/-- Models JS `String.prototype.trim` (whitespace at both ends removed). -/
def jsTrim (s : Str) : Str :=
  ((s.dropWhile Char.isWhitespace).reverse.dropWhile Char.isWhitespace).reverse

-- ============================================================
-- SafetyChecker (gen.ts lines 184-217)
-- ============================================================

/-- `SafetyChecker.dangerousCommands` (gen.ts lines 185-195). -/
def dangerousCommands : List Str :=
  [":()\x7b:|:&\x7d;:".data,
   "> /dev/sda".data,
   "chmod -R 777 /".data,
   "chown -R".data,
   "dd if=".data,
   "format".data,
   "mkfs".data,
   "rm -rf /".data,
   "rm -rf *".data]

/-- `SafetyChecker.destructiveKeywords` (gen.ts lines 196-204). -/
def destructiveKeywords : List Str :=
  ["> /dev/".data,
   "dd".data,
   "del /f /s /q".data,
   "fdisk".data,
   "format".data,
   "mkfs".data,
   "rm -rf".data]

/-- `SafetyChecker.isBlacklisted` (gen.ts lines 206-210): some dangerous
pattern is a case-insensitive substring of the command. -/
def isBlacklisted (command : Str) : Bool :=
  dangerousCommands.any (fun dangerous =>
    jsIncludes (jsToLower command) (jsToLower dangerous))

/-- `SafetyChecker.isDestructive` (gen.ts lines 212-216): some destructive
keyword is a case-insensitive substring of the command. -/
def isDestructive (command : Str) : Bool :=
  destructiveKeywords.any (fun keyword =>
    jsIncludes (jsToLower command) (jsToLower keyword))

-- ============================================================
-- History store (gen.ts lines 41-89, CommandManager)
-- ============================================================

/-- One entry of the `gen` history log (gen.ts interface CommandHistory;
the wall-clock timestamp is not modelled). -/
structure HistoryRecord where
  command : Str
  prompt : Str
  success : Bool
deriving DecidableEq, Repr

/-- `CommandManager.saveToHistory` (gen.ts lines 69-88) as a pure function
from the previously stored list to the newly stored list: `unshift` the
new record, then `splice(50)` (drop everything from index 50 on) when the
length exceeds 50. -/
def saveToHistory (prior : List HistoryRecord) (command prompt : Str)
    (success : Bool) : List HistoryRecord :=
  let history := ({ command, prompt, success } : HistoryRecord) :: prior
  if history.length > 50 then history.take 50 else history

-- ============================================================
-- Execution core (gen.ts lines 302-449)
-- ============================================================

/-- What the spawned child process does, as observed by the event handlers
of gen.ts lines 327-344: either the `close` event fires with an exit code
(`null` when unavailable, modelled by `none`), or the `error` event fires
because the command could not be started. -/
inductive SpawnOutcome where
  | closed (code : Option Int)
  | errored
deriving DecidableEq, Repr

/-- The success judgment of the `close`/`error` handlers (gen.ts lines
327-344): `code === 0 || code === null` on `close`, failure on `error`. -/
def spawnSuccess : SpawnOutcome → Bool
  | .closed (some code) => code == 0
  | .closed none => true
  | .errored => false

/-- The observable effects of one `executeCommand` call (gen.ts lines
302-346): the boolean the promise resolves with, the spawned command, and
the history record written by the event handler. -/
structure ExecResult where
  success : Bool
  spawned : List Str
  history : List HistoryRecord
deriving DecidableEq, Repr

/-- `Gen.executeCommand` (gen.ts lines 302-346): spawn the command, judge
success from the child's outcome, write one history record, resolve with
the success boolean. -/
def executeCommand (cmd prompt : Str) (o : SpawnOutcome) : ExecResult :=
  let success := spawnSuccess o
  { success, spawned := [cmd], history := [{ command := cmd, prompt, success }] }

/-- The observable effects of a full single- or multi-command run: the
defaults of the confirmation prompts shown (in order), the number of
destructive-warning banners, the spawned commands (in order), the history
records written (in chronological write order), and the `this.exit` code
if `exit` was called (`none` means the run returned normally). -/
structure GenTrace where
  confirmDefaults : List Bool
  warnings : Nat
  spawned : List Str
  history : List HistoryRecord
  exitCode : Option Nat
deriving DecidableEq, Repr

/-- `Gen.executeSingleCommand` (gen.ts lines 410-449).  `ans` is the
user's answer to the confirmation prompt; `o` the child's outcome. -/
def executeSingleCommand (cmd prompt : Str) (ans : Bool) (o : SpawnOutcome) :
    GenTrace :=
  if isBlacklisted cmd then
    { confirmDefaults := [], warnings := 0, spawned := [], history := [],
      exitCode := some 1 }
  else
    let destructive := isDestructive cmd
    let warnings := if destructive then 1 else 0
    if !ans then
      { confirmDefaults := [!destructive], warnings, spawned := [],
        history := [], exitCode := some 0 }
    else
      let r := executeCommand cmd prompt o
      { confirmDefaults := [!destructive], warnings, spawned := r.spawned,
        history := r.history, exitCode := none }

/-- The effects of the sequential step loop of
`Gen.executeMultipleCommands`: spawned commands, history writes and the
exit code, if any. -/
structure StepsTrace where
  spawned : List Str
  history : List HistoryRecord
  exitCode : Option Nat
deriving DecidableEq, Repr

/-- The sequential step loop of `Gen.executeMultipleCommands` (gen.ts
lines 385-402): run each step through `executeCommand`; on the first
failure stop and `this.exit(1)`.  `outs i` is the outcome of the child
spawned for step index `i`. -/
def runSteps (prompt : Str) (outs : Nat → SpawnOutcome) :
    Nat → List Str → StepsTrace
  | _, [] => { spawned := [], history := [], exitCode := none }
  | i, cmd :: rest =>
    let r := executeCommand cmd prompt (outs i)
    if r.success then
      let t := runSteps prompt outs (i + 1) rest
      { spawned := r.spawned ++ t.spawned, history := r.history ++ t.history,
        exitCode := t.exitCode }
    else
      { spawned := r.spawned, history := r.history, exitCode := some 1 }

/-- `Gen.executeMultipleCommands` (gen.ts lines 351-405): blacklist veto
over all steps first (exit 1), destructive warning banner, one
confirmation prompt whose default is `!hasDestructive`, then the
fail-fast sequential loop. -/
def executeMultipleCommands (cmds : List Str) (prompt : Str) (ans : Bool)
    (outs : Nat → SpawnOutcome) : GenTrace :=
  if cmds.any isBlacklisted then
    { confirmDefaults := [], warnings := 0, spawned := [], history := [],
      exitCode := some 1 }
  else
    let hasDestructive := cmds.any isDestructive
    let warnings := if hasDestructive then 1 else 0
    if !ans then
      { confirmDefaults := [!hasDestructive], warnings, spawned := [],
        history := [], exitCode := some 0 }
    else
      let t := runSteps prompt outs 0 cmds
      { confirmDefaults := [!hasDestructive], warnings, spawned := t.spawned,
        history := t.history, exitCode := t.exitCode }

-- ============================================================
-- Retry executor (fix.ts lines 88-114, retryWithBackoff)
-- ============================================================

/-- The observable behaviour of one `retryWithBackoff` call: the value it
returns or the value it throws (`Except.error none` models throwing the
initial `undefined` value of `lastError`; `Except.error (some e)` models
re-raising the failure `e` of the last attempt), the number of times the
wrapped operation was invoked, and the backoff wait durations in order. -/
structure RetryOutcome (E A : Type) where
  result : Except (Option E) A
  calls : Nat
  waits : List Nat
deriving Repr

/-- The `for` loop of `retryWithBackoff` (fix.ts lines 95-111), with
`attempt` the current zero-based attempt index and `remaining` the number
of loop iterations still to run (`maxRetries - attempt`, so the loop
guard `attempt < maxRetries` is `remaining ≠ 0`).  `fn i` is the result
of the i-th invocation of the wrapped operation.  On success the loop
returns; on failure `lastError` is updated and, when this was not the
last iteration (`attempt < maxRetries - 1`, i.e. `remaining > 1`), a wait
of `baseDelay * 2 ^ attempt` occurs; when the loop ends, `lastError` is
thrown (fix.ts line 113). -/
def retryLoop (fn : Nat → Except E A) (baseDelay : Nat)
    (attempt remaining : Nat) (lastError : Option E) : RetryOutcome E A :=
  if _h : remaining = 0 then
    { result := .error lastError, calls := 0, waits := [] }
  else
    match fn attempt with
    | .ok a => { result := .ok a, calls := 1, waits := [] }
    | .error e =>
      let rest := retryLoop fn baseDelay (attempt + 1) (remaining - 1) (some e)
      if remaining = 1 then
        { result := rest.result, calls := rest.calls + 1, waits := rest.waits }
      else
        { result := rest.result, calls := rest.calls + 1,
          waits := baseDelay * 2 ^ attempt :: rest.waits }
termination_by remaining
decreasing_by omega

/-- `retryWithBackoff` (fix.ts lines 88-114).  `maxRetries` is an integer
as in the source; the loop `for (attempt = 0; attempt < maxRetries; ...)`
runs `maxRetries.toNat` iterations, and `lastError` starts out
`undefined` (`none`). -/
def retryWithBackoff (fn : Nat → Except E A) (maxRetries : Int)
    (baseDelay : Nat) : RetryOutcome E A :=
  retryLoop fn baseDelay 0 maxRetries.toNat none

-- ============================================================
-- Response parser (gen.ts lines 614-644, parseAIResponse)
-- ============================================================

/-- The command extraction applied to `COMMAND:`/`STEP` lines (gen.ts
lines 624 and 635): `line.split(':').slice(1).join(':').trim()`. -/
def stepCommandOf (line : Str) : Str :=
  jsTrim (joinWith ':' ((splitOnChar ':' line).drop 1))

/-- The suggestion extraction applied to `SUGGESTIONS:` lines (gen.ts
lines 627-628 and 637-638): `line.split(':')[1].trim()` followed by
`split('|').map(s => s.trim())`.  Index 1 of the colon split always
exists for a line that starts with `SUGGESTIONS:`; `[]` is the default
for unreachable inputs. -/
def suggestionsOf (line : Str) : List Str :=
  (splitOnChar '|' (jsTrim ((splitOnChar ':' line).getD 1 []))).map jsTrim

/-- The line preprocessing of gen.ts line 615:
`response.split('\n').map(l => l.trim()).filter(Boolean)`. -/
def linesOf (response : Str) : List Str :=
  ((splitOnChar '\n' response).map jsTrim).filter (fun l => !l.isEmpty)

/-- The accumulating scan shared by the two branches of `parseAIResponse`
(gen.ts lines 620-641): a line starting with `marker` (`"STEP"` in the
multi-step branch, `"COMMAND:"` in the single branch) appends one command,
otherwise a line starting with `SUGGESTIONS:` overwrites the suggestion
list. -/
def parseLoop (marker : Str) :
    List Str → List Str → List Str → List Str × List Str
  | [], commands, suggestions => (commands, suggestions)
  | line :: rest, commands, suggestions =>
    if strStartsWith line marker then
      parseLoop marker rest (commands ++ [stepCommandOf line]) suggestions
    else if strStartsWith line "SUGGESTIONS:".data then
      parseLoop marker rest commands (suggestionsOf line)
    else
      parseLoop marker rest commands suggestions

/-- `Gen.parseAIResponse` (gen.ts lines 614-644): split into trimmed
non-empty lines, branch on the presence of `MULTI_STEP` anywhere in the
raw response, and scan the lines once.  Returns `(commands,
suggestions)`. -/
def parseAIResponse (response : Str) : List Str × List Str :=
  let lines := linesOf response
  if jsIncludes response "MULTI_STEP".data then
    parseLoop "STEP".data lines [] []
  else
    parseLoop "COMMAND:".data lines [] []

-- ============================================================
-- Theorems
-- ============================================================

/-- C1: a command containing a blacklisted pattern (case-insensitive
substring) makes `isBlacklisted` return true, and both the single-command
path and the multi-step path exit with code 1 before spawning any
process: no command of the plan is executed and no history is written. -/
theorem blacklisted_never_spawns (cmd prompt : Str) (ans : Bool)
    (o : SpawnOutcome)
    (h : ∃ d ∈ dangerousCommands,
      jsIncludes (jsToLower cmd) (jsToLower d) = true) :
    isBlacklisted cmd = true
    ∧ executeSingleCommand cmd prompt ans o =
        { confirmDefaults := [], warnings := 0, spawned := [], history := [],
          exitCode := some 1 }
    ∧ ∀ (cmds : List Str) (outs : Nat → SpawnOutcome), cmd ∈ cmds →
        executeMultipleCommands cmds prompt ans outs =
          { confirmDefaults := [], warnings := 0, spawned := [], history := [],
            exitCode := some 1 } := by
  have hb : isBlacklisted cmd = true := by
    obtain ⟨d, hd, hinc⟩ := h
    unfold isBlacklisted
    exact List.any_eq_true.mpr ⟨d, hd, hinc⟩
  refine ⟨hb, ?_, ?_⟩
  · simp [executeSingleCommand, hb]
  · intro cmds outs hmem
    have hany : cmds.any isBlacklisted = true :=
      List.any_eq_true.mpr ⟨cmd, hmem, hb⟩
    simp [executeMultipleCommands, hany]

theorem blacklisted_never_spawns_witness :
    executeSingleCommand "sudo RM -RF / now".data "p".data true
        (SpawnOutcome.closed none) =
      { confirmDefaults := [], warnings := 0, spawned := [], history := [],
        exitCode := some 1 }
    ∧ executeMultipleCommands ["echo hi".data, "sudo RM -RF / now".data]
        "p".data true (fun _ => SpawnOutcome.closed none) =
      { confirmDefaults := [], warnings := 0, spawned := [], history := [],
        exitCode := some 1 } := by
  have h := blacklisted_never_spawns "sudo RM -RF / now".data "p".data true
    (SpawnOutcome.closed none) (by decide)
  exact ⟨h.2.1, h.2.2 _ _ (by decide)⟩

/-- C2: a command containing a destructive keyword and no blacklisted
pattern (case-insensitive substrings) makes `isDestructive` true and
`isBlacklisted` false; the single-command path then shows one warning and
one confirmation prompt whose default answer is `false`, and the
destructive classification never blocks execution by itself: confirming
spawns the command, while declining spawns nothing and exits 0. -/
theorem destructive_flips_default (cmd prompt : Str) (ans : Bool)
    (o : SpawnOutcome)
    (hdes : ∃ k ∈ destructiveKeywords,
      jsIncludes (jsToLower cmd) (jsToLower k) = true)
    (hbl : ∀ d ∈ dangerousCommands,
      jsIncludes (jsToLower cmd) (jsToLower d) = false) :
    isDestructive cmd = true ∧ isBlacklisted cmd = false
    ∧ (executeSingleCommand cmd prompt ans o).confirmDefaults = [false]
    ∧ (executeSingleCommand cmd prompt ans o).warnings = 1
    ∧ (ans = true → (executeSingleCommand cmd prompt ans o).spawned = [cmd])
    ∧ (ans = false → (executeSingleCommand cmd prompt ans o).spawned = []
        ∧ (executeSingleCommand cmd prompt ans o).exitCode = some 0) := by
  have hd : isDestructive cmd = true := by
    obtain ⟨k, hk, hinc⟩ := hdes
    unfold isDestructive
    exact List.any_eq_true.mpr ⟨k, hk, hinc⟩
  have hb : isBlacklisted cmd = false := by
    unfold isBlacklisted
    simp only [List.any_eq_false]
    intro d hdm
    simp [hbl d hdm]
  refine ⟨hd, hb, ?_, ?_, ?_, ?_⟩ <;>
    cases ans <;>
      simp [executeSingleCommand, hb, hd, executeCommand]

theorem destructive_flips_default_witness :
    isDestructive "rm -rf ./build".data = true
    ∧ isBlacklisted "rm -rf ./build".data = false
    ∧ (executeSingleCommand "rm -rf ./build".data "p".data true
        (SpawnOutcome.closed (some 0))).confirmDefaults = [false]
    ∧ (executeSingleCommand "rm -rf ./build".data "p".data true
        (SpawnOutcome.closed (some 0))).spawned = ["rm -rf ./build".data] := by
  have h := destructive_flips_default "rm -rf ./build".data "p".data true
    (SpawnOutcome.closed (some 0)) (by decide) (by decide)
  exact ⟨h.1, h.2.1, h.2.2.1, h.2.2.2.2.1 rfl⟩

/-- C7: the outcome recorded by `executeCommand` on the child's `close`
event is a success exactly when the reported exit code is zero or
unavailable (`null`), and the history record it writes carries that same
judgment. -/
theorem exit_code_null_is_success (cmd prompt : Str) (code : Option Int) :
    ((executeCommand cmd prompt (SpawnOutcome.closed code)).success = true
      ↔ (code = some 0 ∨ code = none))
    ∧ (executeCommand cmd prompt (SpawnOutcome.closed code)).history =
        [{ command := cmd, prompt,
           success := (executeCommand cmd prompt
             (SpawnOutcome.closed code)).success }] := by
  cases code <;> simp [executeCommand, spawnSuccess]

/-- C8: `saveToHistory` stores the new record first, keeps at most the 49
most recent prior records behind it in their original order, and never
stores more than 50 records; a 50-entry prior log stays at 50 entries
with its oldest entry evicted. -/
theorem history_capped (prior : List HistoryRecord) (command prompt : Str)
    (success : Bool) :
    saveToHistory prior command prompt success =
      ({ command, prompt, success } : HistoryRecord) :: prior.take 49
    ∧ (saveToHistory prior command prompt success).length ≤ 50
    ∧ List.Sublist (saveToHistory prior command prompt success).tail prior
    ∧ (prior.length = 50 →
        (saveToHistory prior command prompt success).length = 50
        ∧ (saveToHistory prior command prompt success).tail =
            prior.dropLast) := by
  have key : saveToHistory prior command prompt success =
      ({ command, prompt, success } : HistoryRecord) :: prior.take 49 := by
    unfold saveToHistory
    by_cases h : 50 <
        (({ command, prompt, success } : HistoryRecord) :: prior).length
    · rw [if_pos h]
      rfl
    · rw [if_neg h]
      have hlen : prior.length ≤ 49 := by
        simp only [List.length_cons] at h
        omega
      rw [List.take_of_length_le hlen]
  refine ⟨key, ?_, ?_, ?_⟩
  · rw [key]
    simp only [List.length_cons, List.length_take]
    omega
  · rw [key]
    exact List.take_sublist 49 prior
  · intro h50
    constructor
    · rw [key]
      simp [List.length_take, h50]
    · rw [key, List.dropLast_eq_take, h50]
      simp

theorem history_capped_witness :
    (saveToHistory
        (List.replicate 50
          ({ command := "c".data, prompt := "p".data, success := true } :
            HistoryRecord))
        "new".data "np".data false).length = 50 := by
  have h := history_capped
    (List.replicate 50
      ({ command := "c".data, prompt := "p".data, success := true } :
        HistoryRecord))
    "new".data "np".data false
  exact (h.2.2.2 (by simp)).1

/-- C6: for a three-step plan whose steps behave as success, failure,
success (none blacklisted, user confirmed), the sequencer spawns only the
first two commands in order, writes exactly two history records — a
success for step 1 then a failure for step 2, in chronological order —
and exits with code 1; the third command is never spawned. -/
theorem multi_step_fail_fast (c1 c2 c3 prompt : Str)
    (outs : Nat → SpawnOutcome)
    (hbl : ([c1, c2, c3].any isBlacklisted) = false)
    (h0 : spawnSuccess (outs 0) = true)
    (h1 : spawnSuccess (outs 1) = false)
    (_h2 : spawnSuccess (outs 2) = true) :
    (executeMultipleCommands [c1, c2, c3] prompt true outs).spawned = [c1, c2]
    ∧ (executeMultipleCommands [c1, c2, c3] prompt true outs).history =
        [{ command := c1, prompt, success := true },
         { command := c2, prompt, success := false }]
    ∧ (executeMultipleCommands [c1, c2, c3] prompt true outs).exitCode =
        some 1 := by
  refine ⟨?_, ?_, ?_⟩ <;>
    simp [executeMultipleCommands, hbl, runSteps, executeCommand, h0, h1]

theorem multi_step_fail_fast_witness :
    (executeMultipleCommands ["echo a".data, "echo b".data, "echo c".data]
        "p".data true
        (fun i => if i == 1 then SpawnOutcome.errored
                  else SpawnOutcome.closed (some 0))).spawned =
      ["echo a".data, "echo b".data]
    ∧ (executeMultipleCommands ["echo a".data, "echo b".data, "echo c".data]
        "p".data true
        (fun i => if i == 1 then SpawnOutcome.errored
                  else SpawnOutcome.closed (some 0))).exitCode = some 1 := by
  have h := multi_step_fail_fast "echo a".data "echo b".data "echo c".data
    "p".data
    (fun i => if i == 1 then SpawnOutcome.errored
              else SpawnOutcome.closed (some 0))
    (by decide) (by decide) (by decide) (by decide)
  exact ⟨h.1, h.2.2⟩

/-- C3: an operation that fails on its first two invocations and succeeds
on the third, run under `retryWithBackoff` with `maxRetries = 3` and base
delay `d`, returns the third invocation's success value, is invoked
exactly three times, and incurs exactly two backoff waits of `d * 1` then
`d * 2`, with no wait after the final attempt. -/
theorem retry_fail_fail_ok {E A : Type} (fn : Nat → Except E A) (d : Nat)
    (e0 e1 : E) (a : A)
    (h0 : fn 0 = Except.error e0) (h1 : fn 1 = Except.error e1)
    (h2 : fn 2 = Except.ok a) :
    retryWithBackoff fn 3 d =
      { result := Except.ok a, calls := 3, waits := [d * 1, d * 2] } := by
  unfold retryWithBackoff
  have ht : (3 : Int).toNat = 3 := rfl
  rw [ht]
  simp [retryLoop.eq_def, h0, h1, h2, pow_succ]

theorem retry_fail_fail_ok_witness :
    retryWithBackoff
        (fun i => if i < 2 then Except.error i else Except.ok 42) 3 1000 =
      { result := Except.ok 42, calls := 3, waits := [1000 * 1, 1000 * 2] } :=
  retry_fail_fail_ok _ 1000 0 1 42 rfl rfl rfl

/-- C4: an operation that fails on every invocation, run under
`retryWithBackoff` with `maxRetries = 3`, is invoked exactly three times
with exactly two waits, and the call then raises exactly the failure of
the third attempt, unchanged. -/
theorem retry_exhaustion_reraises {E A : Type} (fn : Nat → Except E A)
    (d : Nat) (e0 e1 e2 : E)
    (h0 : fn 0 = Except.error e0) (h1 : fn 1 = Except.error e1)
    (h2 : fn 2 = Except.error e2) :
    retryWithBackoff fn 3 d =
      { result := (Except.error (some e2) : Except (Option E) A),
        calls := 3, waits := [d * 1, d * 2] } := by
  unfold retryWithBackoff
  have ht : (3 : Int).toNat = 3 := rfl
  rw [ht]
  simp [retryLoop.eq_def, h0, h1, h2, pow_succ]

theorem retry_exhaustion_reraises_witness :
    retryWithBackoff (fun i => (Except.error i : Except Nat Nat)) 3 7 =
      { result := Except.error (some 2), calls := 3,
        waits := [7 * 1, 7 * 2] } :=
  retry_exhaustion_reraises _ 7 0 1 2 rfl rfl rfl

/-- C9: with a non-positive `maxRetries`, `retryWithBackoff` never invokes
the wrapped operation, performs no wait, and throws the initial
`undefined` value of `lastError` (modelled as `none`) rather than any
failure produced by an attempt. -/
theorem retry_nonpositive_throws_undefined {E A : Type}
    (fn : Nat → Except E A) (maxRetries : Int) (d : Nat)
    (h : maxRetries ≤ 0) :
    retryWithBackoff fn maxRetries d =
      { result := (Except.error none : Except (Option E) A), calls := 0,
        waits := [] } := by
  unfold retryWithBackoff
  rw [Int.toNat_of_nonpos h]
  rw [retryLoop.eq_def]
  simp

theorem retry_nonpositive_throws_undefined_witness :
    retryWithBackoff (fun i => (Except.error i : Except Nat Nat)) 0 1000 =
      { result := Except.error none, calls := 0, waits := [] } :=
  retry_nonpositive_throws_undefined _ 0 1000 (by decide)

-- ============================================================
-- Parser lemmas
-- ============================================================

/-- Splitting a string that starts with a separator-free chunk `xs`
followed by a separator: the first chunk is `xs` and the rest is the
split of the remainder. -/
theorem splitAux_append_sep (sep : Char) (xs ys : Str) (h : sep ∉ xs) :
    splitAux sep (xs ++ sep :: ys) =
      (xs, (splitAux sep ys).1 :: (splitAux sep ys).2) := by
  induction xs with
  | nil => simp [splitAux]
  | cons c cs ih =>
    have hc : (c == sep) = false := by
      simp only [beq_eq_false_iff_ne, ne_eq]
      intro hcc
      exact h (hcc ▸ List.mem_cons_self c cs)
    have ih2 := ih (fun hm => h (List.mem_cons_of_mem c hm))
    simp [splitAux, hc, ih2]

theorem splitOnChar_append_sep (sep : Char) (xs ys : Str) (h : sep ∉ xs) :
    splitOnChar sep (xs ++ sep :: ys) = xs :: splitOnChar sep ys := by
  simp [splitOnChar, splitAux_append_sep sep xs ys h]

/-- Joining a split with the same separator is the identity (JS
`s.split(c).join(c) === s`). -/
theorem joinWith_splitOnChar (sep : Char) (l : Str) :
    joinWith sep (splitOnChar sep l) = l := by
  induction l with
  | nil => rfl
  | cons c cs ih =>
    by_cases h : c == sep
    · have hceq : c = sep := by simpa using h
      subst hceq
      simp only [splitOnChar, splitAux, beq_self_eq_true, if_true] at *
      simpa [joinWith] using ih
    · have hc : (c == sep) = false := by simpa using h
      simp only [splitOnChar, splitAux, hc, if_false] at *
      rcases hrs : (splitAux sep cs).2 with _ | ⟨r2, rs2⟩
      · rw [hrs] at ih
        simpa [joinWith] using ih
      · rw [hrs] at ih
        simpa [joinWith] using ih

/-- A string always starts with its own prefix. -/
theorem strStartsWith_append (xs w : Str) :
    strStartsWith (xs ++ w) xs = true := by
  induction xs with
  | nil => cases w <;> rfl
  | cons c cs ih => simp [strStartsWith, ih]

/-- The commands accumulated by `parseLoop`: one command per line starting
with the marker, extracted by `stepCommandOf`, in line order. -/
theorem parseLoop_commands (marker : Str) (ls : List Str)
    (cs sug : List Str) :
    (parseLoop marker ls cs sug).1 =
      cs ++ (ls.filter (fun l => strStartsWith l marker)).map stepCommandOf := by
  induction ls generalizing cs sug with
  | nil => simp [parseLoop]
  | cons line rest ih =>
    by_cases h1 : strStartsWith line marker
    · simp [parseLoop, h1, ih]
    · by_cases h2 : strStartsWith line "SUGGESTIONS:".data <;>
        simp [parseLoop, h1, h2, ih]

/-- The suggestions returned by `parseLoop` when the last line is a
`SUGGESTIONS:` line that does not match the command marker: the last
assignment wins. -/
theorem parseLoop_last_suggestions (marker : Str) (ls : List Str)
    (cs sug : List Str) (line : Str)
    (hm : strStartsWith line marker = false)
    (hs : strStartsWith line "SUGGESTIONS:".data = true) :
    (parseLoop marker (ls ++ [line]) cs sug).2 = suggestionsOf line := by
  induction ls generalizing cs sug with
  | nil => simp [parseLoop, hm, hs]
  | cons l rest ih =>
    by_cases h1 : strStartsWith l marker
    · simp [parseLoop, h1, ih]
    · by_cases h2 : strStartsWith l "SUGGESTIONS:".data <;>
        simp [parseLoop, h1, h2, ih]

/-- C5 counterexample: in the response `"MULTI_STEP\nSTEP1:"`, the line
`STEP1:` carries no command text after its colon, yet `parseAIResponse`
pushes one command for it — the empty string — so not every element of
the returned commands list is non-empty. -/
theorem parse_empty_step_counterexample :
    jsIncludes "MULTI_STEP\nSTEP1:".data "MULTI_STEP".data = true
    ∧ (parseAIResponse "MULTI_STEP\nSTEP1:".data).1 = [[]]
    ∧ ¬(∀ c ∈ (parseAIResponse "MULTI_STEP\nSTEP1:".data).1, c ≠ []) := by
  refine ⟨by decide, by decide, ?_⟩
  intro hall
  exact hall [] (by decide) rfl

/-- C5 (amended): in a `MULTI_STEP` response, every trimmed non-empty line
beginning with `STEP` contributes exactly one command — the text after
its first colon, trimmed — and that command is the empty string when the
line has no colon or no text after its first colon, so the returned
commands list may contain empty strings.  (Lines that are entirely empty
after trimming are filtered out before the scan and contribute
nothing.) -/
theorem step_lines_contribute_trimmed_tail (response : Str)
    (h : jsIncludes response "MULTI_STEP".data = true) :
    (parseAIResponse response).1 =
      ((linesOf response).filter
        (fun l => strStartsWith l "STEP".data)).map stepCommandOf
    ∧ stepCommandOf "STEP1:".data = [] ∧ stepCommandOf "STEP1".data = [] := by
  refine ⟨?_, by decide, by decide⟩
  simp [parseAIResponse, h, parseLoop_commands]

theorem step_lines_contribute_trimmed_tail_witness :
    (parseAIResponse "MULTI_STEP\nSTEP1: mkdir x\nSTEP2:".data).1 =
      ((linesOf "MULTI_STEP\nSTEP1: mkdir x\nSTEP2:".data).filter
        (fun l => strStartsWith l "STEP".data)).map stepCommandOf :=
  (step_lines_contribute_trimmed_tail "MULTI_STEP\nSTEP1: mkdir x\nSTEP2:".data
    (by decide)).1

/-- C10: on a `SUGGESTIONS:` line whose content contains a colon (line =
`SUGGESTIONS:` ++ u ++ `:` ++ v with u colon-free), the parser keeps only
`u` — the text between the first and second colon — before pipe-splitting,
discarding `v` entirely, in both the single-command branch (response `r`)
and the multi-step branch (response `r2`); whereas the same content after
a `COMMAND:` or `STEP` marker is preserved whole, colons included. -/
theorem suggestions_keep_between_first_two_colons
    (r r2 : Str) (ls ls2 : List Str) (u v : Str)
    (hu : ':' ∉ u)
    (hml : jsIncludes r "MULTI_STEP".data = false)
    (hlines : linesOf r = ls ++ ["SUGGESTIONS:".data ++ u ++ ':' :: v])
    (hml2 : jsIncludes r2 "MULTI_STEP".data = true)
    (hlines2 : linesOf r2 = ls2 ++ ["SUGGESTIONS:".data ++ u ++ ':' :: v]) :
    (parseAIResponse r).2 = (splitOnChar '|' (jsTrim u)).map jsTrim
    ∧ (parseAIResponse r2).2 = (splitOnChar '|' (jsTrim u)).map jsTrim
    ∧ suggestionsOf ("SUGGESTIONS:".data ++ u ++ ':' :: v) =
        (splitOnChar '|' (jsTrim u)).map jsTrim
    ∧ stepCommandOf ("COMMAND:".data ++ u ++ ':' :: v) =
        jsTrim (u ++ ':' :: v)
    ∧ stepCommandOf ("STEP1:".data ++ u ++ ':' :: v) =
        jsTrim (u ++ ':' :: v) := by
  have hsplit2 : splitOnChar ':' (u ++ ':' :: v) = u :: splitOnChar ':' v :=
    splitOnChar_append_sep ':' u v hu
  have hsug : suggestionsOf ("SUGGESTIONS:".data ++ u ++ ':' :: v) =
      (splitOnChar '|' (jsTrim u)).map jsTrim := by
    have heq : "SUGGESTIONS:".data ++ u ++ ':' :: v =
        "SUGGESTIONS".data ++ ':' :: (u ++ ':' :: v) := rfl
    unfold suggestionsOf
    rw [heq, splitOnChar_append_sep ':' "SUGGESTIONS".data _ (by decide),
      hsplit2]
    rfl
  have hcmd : ∀ xs : Str, ':' ∉ xs →
      stepCommandOf (xs ++ ':' :: (u ++ ':' :: v)) =
        jsTrim (u ++ ':' :: v) := by
    intro xs hxs
    unfold stepCommandOf
    rw [splitOnChar_append_sep ':' xs _ hxs]
    simp [joinWith_splitOnChar]
  have hline_s : strStartsWith ("SUGGESTIONS:".data ++ u ++ ':' :: v)
      "SUGGESTIONS:".data = true :=
    strStartsWith_append "SUGGESTIONS:".data (u ++ ':' :: v)
  refine ⟨?_, ?_, hsug, hcmd "COMMAND".data (by decide),
    hcmd "STEP1".data (by decide)⟩
  · have hm : strStartsWith ("SUGGESTIONS:".data ++ u ++ ':' :: v)
        "COMMAND:".data = false := rfl
    unfold parseAIResponse
    simp only [hml, Bool.false_eq_true, if_false]
    rw [hlines, parseLoop_last_suggestions _ _ _ _ _ hm hline_s]
    exact hsug
  · have hm : strStartsWith ("SUGGESTIONS:".data ++ u ++ ':' :: v)
        "STEP".data = false := rfl
    unfold parseAIResponse
    simp only [hml2, if_true]
    rw [hlines2, parseLoop_last_suggestions _ _ _ _ _ hm hline_s]
    exact hsug

theorem suggestions_keep_between_first_two_colons_witness :
    (parseAIResponse "COMMAND: ls\nSUGGESTIONS: a:b".data).2 =
      (splitOnChar '|' (jsTrim " a".data)).map jsTrim
    ∧ (parseAIResponse "MULTI_STEP\nSTEP1: ls\nSUGGESTIONS: a:b".data).2 =
      (splitOnChar '|' (jsTrim " a".data)).map jsTrim := by
  have h := suggestions_keep_between_first_two_colons
    "COMMAND: ls\nSUGGESTIONS: a:b".data
    "MULTI_STEP\nSTEP1: ls\nSUGGESTIONS: a:b".data
    ["COMMAND: ls".data] ["MULTI_STEP".data, "STEP1: ls".data]
    " a".data "b".data
    (by decide) (by decide) (by decide) (by decide) (by decide)
  exact ⟨h.1, h.2.1⟩
